import Mathlib

/-!
Verification of the timing-control utilities (throttle, debounce) and the
abortable data-fetch hook (useFetch) of the React-Developer-Utils repository.

The JavaScript sources are embedded shallowly:

* throttle / debounce (src/unnamed/part_010) are higher-order functions whose
  closures hold mutable timer state.  We embed the closure state as a record
  and the event loop as a fold over a time-sorted list of call events
  (timestamp, argument token).  A pending setTimeout callback is represented
  by its fire time and captured argument; timers fire punctually: before a
  call event at time t, a pending timer whose fire time is at most t runs
  first, and after the last event any still-pending timer runs (the quiet
  period).  Argument lists are abstracted as tokens of an arbitrary type.

* useFetch (src/hooks/useFetch.js) keeps React state (data, error, loading),
  a controllerRef holding the current AbortController, and an async fetchData
  whose continuation runs when the request settles.  We embed the hook state
  as a record: controllers are numbered, aborted controllers are collected in
  a list, and every setData / setError / setLoading call is recorded in a log
  together with the mounted flag at the moment of the call, so that writes
  performed after teardown are observable in the model.
-/

namespace ReactUtils

/-! ## throttle (src/unnamed/part_010)

```js
export function throttle(fn, wait = 1000) {
  let lastTime = 0;
  let timeoutId = null;
  return function (...args) {
    const now = Date.now();
    const remaining = wait - (now - lastTime);
    if (remaining <= 0) {
      if (timeoutId) { clearTimeout(timeoutId); timeoutId = null; }
      lastTime = now;
      fn.apply(this, args);
    } else if (!timeoutId) {
      timeoutId = setTimeout(() => {
        lastTime = Date.now();
        timeoutId = null;
        fn.apply(this, args);
      }, remaining);
    }
  };
}
```
-/

/-- Closure state of a throttle wrapper: `lastTime` and the pending
setTimeout, if any, as (fire time, captured argument token). -/
structure ThrottleState (α : Type) where
  lastTime : Nat
  timer : Option (Nat × α)
deriving Repr, DecidableEq

/-- Initial closure state: `lastTime = 0`, no pending timer. -/
def throttleInit {α : Type} : ThrottleState α := ⟨0, none⟩

/-- One synchronous invocation of the throttled wrapper at time `now` with
argument `args`.  Returns the new closure state and `some args` iff `fn` was
executed synchronously (the leading-edge branch).  Mirrors the source: the
`remaining <= 0` branch clears any pending timer, updates `lastTime`, and
runs `fn`; otherwise a timer is scheduled only when none is pending
(`else if (!timeoutId)`), firing `remaining` ms later with THIS call's
arguments. -/
def throttleCall {α : Type} (wait : Nat) (s : ThrottleState α) (now : Nat)
    (args : α) : ThrottleState α × Option α :=
  let remaining : Int := (wait : Int) - ((now : Int) - (s.lastTime : Int))
  if remaining ≤ 0 then
    (⟨now, none⟩, some args)
  else
    match s.timer with
    | some _ => (s, none)
    | none => (⟨s.lastTime, some (((now : Int) + remaining).toNat, args)⟩, none)

/-- Run the pending timer callback if it is due by time `now`.  The callback
sets `lastTime = Date.now()` (the fire time, timers being punctual), clears
`timeoutId`, and runs `fn` with the captured arguments. -/
def fireDue {α : Type} (s : ThrottleState α) (now : Nat) :
    ThrottleState α × List (Nat × α) :=
  match s.timer with
  | some (t, a) => if t ≤ now then (⟨t, none⟩, [(t, a)]) else (s, [])
  | none => (s, [])

/-- Event-loop step for one call event `ev = (time, args)`: a due timer fires
first, then the wrapper is invoked.  Returns the new state and the executions
of `fn` (time, args) performed during the step, in order. -/
def throttleStep {α : Type} (wait : Nat) (s : ThrottleState α)
    (ev : Nat × α) : ThrottleState α × List (Nat × α) :=
  let p := fireDue s ev.1
  let q := throttleCall wait p.1 ev.1 ev.2
  (q.1, p.2 ++ (match q.2 with | some a => [(ev.1, a)] | none => []))

/-- Process a time-sorted list of call events, collecting all executions of
`fn`. -/
def throttleRunAux {α : Type} (wait : Nat) (s : ThrottleState α)
    (events : List (Nat × α)) : ThrottleState α × List (Nat × α) :=
  match events with
  | [] => (s, [])
  | ev :: rest =>
    let p := throttleStep wait s ev
    let q := throttleRunAux wait p.1 rest
    (q.1, p.2 ++ q.2)

/-- After the last call event the event loop goes quiet; a still-pending
timer fires. -/
def throttleFlush {α : Type} (s : ThrottleState α) : List (Nat × α) :=
  match s.timer with
  | some (t, a) => [(t, a)]
  | none => []

/-- All executions of `fn` (time, args) produced by a throttled wrapper over
a list of call events, followed by the trailing timer if one is pending at
the end. -/
def throttleRun {α : Type} (wait : Nat) (events : List (Nat × α)) :
    List (Nat × α) :=
  let p := throttleRunAux wait throttleInit events
  p.2 ++ throttleFlush p.1

/-! ## debounce (src/unnamed/part_010)

```js
export function debounce(fn, delay = 300) {
  let timeoutId;
  return function (...args) {
    const context = this;
    clearTimeout(timeoutId);
    timeoutId = setTimeout(() => { fn.apply(context, args); }, delay);
  };
}
```
-/

/-- Closure state of a debounce wrapper: the pending setTimeout, if any. -/
structure DebounceState (α : Type) where
  timer : Option (Nat × α)
deriving Repr, DecidableEq

/-- Initial closure state: no pending timer. -/
def debounceInit {α : Type} : DebounceState α := ⟨none⟩

/-- One invocation of the debounced wrapper at time `now`: the pending timer
(if any) is cleared and a fresh timer is scheduled `delay` ms later with this
call's arguments. -/
def debounceCall {α : Type} (delay : Nat) (_s : DebounceState α) (now : Nat)
    (args : α) : DebounceState α :=
  ⟨some (now + delay, args)⟩

/-- Event-loop step for one call event: a due timer fires first (executing
`fn`), then the wrapper is invoked. -/
def debounceStep {α : Type} (delay : Nat) (s : DebounceState α)
    (ev : Nat × α) : DebounceState α × List (Nat × α) :=
  let p : DebounceState α × List (Nat × α) :=
    match s.timer with
    | some (t, a) => if t ≤ ev.1 then (⟨none⟩, [(t, a)]) else (s, [])
    | none => (s, [])
  (debounceCall delay p.1 ev.1 ev.2, p.2)

/-- Process a time-sorted list of call events through a debounce wrapper. -/
def debounceRunAux {α : Type} (delay : Nat) (s : DebounceState α)
    (events : List (Nat × α)) : DebounceState α × List (Nat × α) :=
  match events with
  | [] => (s, [])
  | ev :: rest =>
    let p := debounceStep delay s ev
    let q := debounceRunAux delay p.1 rest
    (q.1, p.2 ++ q.2)

/-- A still-pending debounce timer fires once the event stream goes quiet. -/
def debounceFlush {α : Type} (s : DebounceState α) : List (Nat × α) :=
  match s.timer with
  | some (t, a) => [(t, a)]
  | none => []

/-- All executions of `fn` (time, args) produced by a debounced wrapper over
a list of call events, followed by the trailing timer if one is pending at
the end. -/
def debounceRun {α : Type} (delay : Nat) (events : List (Nat × α)) :
    List (Nat × α) :=
  let p := debounceRunAux delay debounceInit events
  p.2 ++ debounceFlush p.1

/-! ## useFetch (src/hooks/useFetch.js)

The hook keeps `data`, `error`, `loading` React state, a `controllerRef`, and
an async `fetchData`:

```js
const fetchData = useCallback(async () => {
  setLoading(true);
  setError(null);
  controllerRef.current = new AbortController();
  const signal = controllerRef.current.signal;
  try {
    const response = await fetch(url, { ...options, signal });
    if (!response.ok) throw new Error(`HTTP error! Status: ` + response.status);
    const result = await response.json();
    setData(result);
  } catch (err) {
    if (err.name !== "AbortError") setError(err);
  } finally {
    setLoading(false);
  }
}, [url, options]);

useEffect(() => {
  if (immediate) fetchData();
  return () => { controllerRef.current?.abort(); };
}, [fetchData, immediate]);
```

Controllers are numbered by creation order; `abortedCtrls` is the set of
controllers on which `abort()` has been called.  Decoded response bodies are
abstracted as `Nat` tokens; errors as (name, message) string pairs.  Every
`setData` / `setError` / `setLoading` call appends (field, mounted-at-write)
to `log`. -/

/-- State of one useFetch hook instance plus the surrounding runtime: the
three React state cells, the controllerRef, the set of aborted controllers,
a fresh-controller counter, the consuming component's mounted flag, and the
log of state-setter calls (field name, mounted flag at call time). -/
structure FetchState where
  data : Option Nat
  error : Option (String × String)
  loading : Bool
  ctrl : Option Nat
  abortedCtrls : List Nat
  nextId : Nat
  mounted : Bool
  log : List (String × Bool)
deriving Repr, DecidableEq

/-- State on first render: `useState(null)`, `useState(null)`,
`useState(immediate)`; no controller yet, component mounted, no setter call
made. -/
def initFetch (immediate : Bool) : FetchState :=
  { data := none, error := none, loading := immediate, ctrl := none,
    abortedCtrls := [], nextId := 0, mounted := true, log := [] }

/-- A `setData(v)` call: updates the cell and records the write. -/
def setDataF (s : FetchState) (v : Option Nat) : FetchState :=
  { s with data := v, log := s.log ++ [("data", s.mounted)] }

/-- A `setError(v)` call: updates the cell and records the write. -/
def setErrorF (s : FetchState) (v : Option (String × String)) : FetchState :=
  { s with error := v, log := s.log ++ [("error", s.mounted)] }

/-- A `setLoading(v)` call: updates the cell and records the write. -/
def setLoadingF (s : FetchState) (v : Bool) : FetchState :=
  { s with loading := v, log := s.log ++ [("loading", s.mounted)] }

/-- The synchronous prefix of `fetchData` (run on the initial effect when
`immediate` is true, and on every `refetch`): `setLoading(true)`,
`setError(null)`, then `controllerRef.current = new AbortController()` — the
ref is OVERWRITTEN with a fresh controller; the source does not call
`abort()` on the controller being replaced.  Returns the new state and the
fresh controller's number, which identifies the started request. -/
def startFetch (s : FetchState) : FetchState × Nat :=
  let s1 := setLoadingF s true
  let s2 := setErrorF s1 none
  ({ s2 with ctrl := some s2.nextId, nextId := s2.nextId + 1 }, s2.nextId)

/-- The effect cleanup `controllerRef.current?.abort()`: marks the current
controller (if any) aborted. -/
def cleanupFetch (s : FetchState) : FetchState :=
  match s.ctrl with
  | some c => { s with abortedCtrls := s.abortedCtrls ++ [c] }
  | none => s

/-- Component unmount: React runs the effect cleanup (which aborts the
current controller) and destroys the instance; any later setter call happens
on an unmounted component. -/
def unmountFetch (s : FetchState) : FetchState :=
  { cleanupFetch s with mounted := false }

/-- What the network does for one request, absent an abort: the response
settles as a decodable success body, a response with a non-ok status, or a
rejection carrying an error (name, message). -/
inductive Outcome where
  | success (v : Nat)
  | httpError (status : Nat)
  | netError (name msg : String)
deriving Repr, DecidableEq

/-- The continuation of `fetchData` for request `r` once it settles with raw
network outcome `o`.  If controller `r` was aborted before the continuation
observes the result, the awaited promise rejects with an error named
"AbortError", and the catch block (`if (err.name !== "AbortError")`)
suppresses it; a non-ok status raises `new Error("HTTP error! Status: " +
status)` (name "Error"), which the catch stores via `setError`; a network
rejection is stored unless its name is "AbortError".  The `finally` block
always calls `setLoading(false)`. -/
def settle (s : FetchState) (r : Nat) (o : Outcome) : FetchState :=
  let s1 :=
    if r ∈ s.abortedCtrls then
      s
    else
      match o with
      | .success v => setDataF s (some v)
      | .httpError st =>
          setErrorF s (some ("Error", "HTTP error! Status: " ++ toString st))
      | .netError name msg =>
          if name = "AbortError" then s else setErrorF s (some (name, msg))
  setLoadingF s1 false

/-! ## Auxiliary lemmas about the timing utilities -/

/-- A pending timer that is not yet due does not fire. -/
theorem fireDue_not_due {α : Type} (s : ThrottleState α) (now t : Nat)
    (a : α) (hs : s.timer = some (t, a)) (h : ¬ t ≤ now) :
    fireDue s now = (s, []) := by
  simp [fireDue, hs, h]

/-- With no pending timer there is nothing to fire. -/
theorem fireDue_none {α : Type} (s : ThrottleState α) (now : Nat)
    (hs : s.timer = none) : fireDue s now = (s, []) := by
  simp [fireDue, hs]

/-- A due pending timer fires at its scheduled time, clearing itself and
setting `lastTime` to the fire time. -/
theorem fireDue_due {α : Type} (s : ThrottleState α) (now t : Nat) (a : α)
    (hs : s.timer = some (t, a)) (h : t ≤ now) :
    fireDue s now = (⟨t, none⟩, [(t, a)]) := by
  simp [fireDue, hs, h]

/-- Leading-edge branch of the wrapper: when at least `wait` ms have passed
since `lastTime`, the call clears any pending timer, updates `lastTime`, and
executes `fn` synchronously. -/
theorem throttleCall_leading {α : Type} (wait : Nat) (s : ThrottleState α)
    (now : Nat) (a : α) (h : s.lastTime + wait ≤ now) :
    throttleCall wait s now a = (⟨now, none⟩, some a) := by
  have hc : (wait : Int) - ((now : Int) - (s.lastTime : Int)) ≤ 0 := by
    omega
  simp [throttleCall, hc]

/-- In-window call with a timer already pending: the call is dropped
entirely (the source's `else if (!timeoutId)` fails), its arguments
discarded. -/
theorem throttleCall_drop {α : Type} (wait : Nat) (s : ThrottleState α)
    (now : Nat) (a : α) (t : Nat) (b : α) (hs : s.timer = some (t, b))
    (h : now < s.lastTime + wait) : throttleCall wait s now a = (s, none) := by
  have hc : ¬ ((wait : Int) - ((now : Int) - (s.lastTime : Int)) ≤ 0) := by
    omega
  simp [throttleCall, hs, hc]

/-- In-window call with no timer pending: a trailing timer is scheduled to
fire `remaining` ms later, that is at `lastTime + wait`, capturing this
call's arguments. -/
theorem throttleCall_schedule {α : Type} (wait : Nat) (s : ThrottleState α)
    (now : Nat) (a : α) (hs : s.timer = none) (h : now < s.lastTime + wait) :
    throttleCall wait s now a =
      (⟨s.lastTime, some (s.lastTime + wait, a)⟩, none) := by
  have hc : ¬ ((wait : Int) - ((now : Int) - (s.lastTime : Int)) ≤ 0) := by
    omega
  have ht : ((now : Int) + ((wait : Int) - ((now : Int) - (s.lastTime : Int)))).toNat =
      s.lastTime + wait := by omega
  simp [throttleCall, hs, hc, ht]

/-- While a trailing timer scheduled to fire at `t0 + wait` is pending and
`lastTime = t0`, any call event strictly before `t0 + wait` neither fires the
timer nor changes the closure state nor executes `fn` (the source drops such
calls: `else if (!timeoutId)` fails). -/
theorem throttleRunAux_drop {α : Type} (wait : Nat) :
    ∀ (rest : List (Nat × α)) (t0 : Nat) (b : α),
      (∀ e ∈ rest, e.1 < t0 + wait) →
      throttleRunAux wait ⟨t0, some (t0 + wait, b)⟩ rest =
        (⟨t0, some (t0 + wait, b)⟩, []) := by
  intro rest
  induction rest with
  | nil => intro t0 b _; rfl
  | cons e rest ih =>
    intro t0 b h
    have he : e.1 < t0 + wait := h e (List.mem_cons_self e rest)
    have hfire : fireDue (⟨t0, some (t0 + wait, b)⟩ : ThrottleState α) e.1 =
        (⟨t0, some (t0 + wait, b)⟩, []) :=
      fireDue_not_due _ _ _ _ rfl (by omega)
    have hcall : throttleCall wait (⟨t0, some (t0 + wait, b)⟩ : ThrottleState α)
        e.1 e.2 = (⟨t0, some (t0 + wait, b)⟩, none) :=
      throttleCall_drop _ _ _ _ _ _ rfl (by simp; omega)
    simp only [throttleRunAux, throttleStep, hfire, hcall]
    rw [ih t0 b (fun x hx => h x (List.mem_cons_of_mem e hx))]
    simp

/-- While a debounce timer scheduled for `prev.1 + delay` is pending, a
chain of further calls each arriving strictly within `delay` of its
predecessor keeps replacing the timer without ever firing `fn`; at the end
the pending timer is for the last call. -/
theorem debounceRunAux_pending {α : Type} (delay : Nat) :
    ∀ (l : List (Nat × α)) (prev lastCall : Nat × α),
      List.Chain' (fun p q => p.1 ≤ q.1 ∧ q.1 < p.1 + delay)
        (prev :: (l ++ [lastCall])) →
      debounceRunAux delay ⟨some (prev.1 + delay, prev.2)⟩ (l ++ [lastCall]) =
        (⟨some (lastCall.1 + delay, lastCall.2)⟩, []) := by
  intro l
  induction l with
  | nil =>
    intro prev lastCall h
    rcases List.chain'_cons.mp h with ⟨⟨h1, h2⟩, _⟩
    simp only [List.nil_append, debounceRunAux, debounceStep, debounceCall]
    rw [if_neg (by omega)]
    simp
  | cons e l ih =>
    intro prev lastCall h
    rcases List.chain'_cons.mp h with ⟨⟨h1, h2⟩, htail⟩
    simp only [List.cons_append, debounceRunAux, debounceStep, debounceCall,
      List.append_eq]
    rw [if_neg (by omega), ih e lastCall htail]
    simp

/-- Timer-consistency invariant of the throttle wrapper: a pending trailing
timer always fires exactly at `lastTime + wait` (it was scheduled
`remaining = wait - (now - lastTime)` ms after `now`). -/
def timerOk {α : Type} (wait : Nat) (s : ThrottleState α) : Prop :=
  ∀ t a, s.timer = some (t, a) → t = s.lastTime + wait

/-- One event-loop step of the throttle wrapper preserves the timer
invariant and produces zero, one, or two executions of `fn`; each execution
happens at least `wait` after the previous one (whose time is recorded in
`lastTime`), and `lastTime` afterwards records the time of the step's last
execution, if any. -/
theorem throttleStep_shape {α : Type} (wait : Nat) (s : ThrottleState α)
    (ev : Nat × α) (hok : timerOk wait s) :
    timerOk wait (throttleStep wait s ev).1 ∧
    (((throttleStep wait s ev).2 = [] ∧
        (throttleStep wait s ev).1.lastTime = s.lastTime) ∨
      (∃ e, (throttleStep wait s ev).2 = [e] ∧ s.lastTime + wait ≤ e.1 ∧
        (throttleStep wait s ev).1.lastTime = e.1) ∨
      (∃ e f, (throttleStep wait s ev).2 = [e, f] ∧ s.lastTime + wait ≤ e.1 ∧
        e.1 + wait ≤ f.1 ∧ (throttleStep wait s ev).1.lastTime = f.1)) := by
  rcases hs : s.timer with _ | ⟨t, b⟩
  · have hfire := fireDue_none s ev.1 hs
    by_cases h : s.lastTime + wait ≤ ev.1
    · have hcall := throttleCall_leading wait s ev.1 ev.2 h
      simp only [throttleStep, hfire, hcall]
      refine ⟨fun t a hta => by simp at hta, Or.inr (Or.inl ⟨(ev.1, ev.2), ?_, ?_, ?_⟩)⟩
      · simp
      · exact h
      · rfl
    · have hcall := throttleCall_schedule wait s ev.1 ev.2 hs (by omega)
      simp only [throttleStep, hfire, hcall]
      refine ⟨fun t a hta => ?_, Or.inl ⟨?_, ?_⟩⟩
      · simp only at hta
        cases hta
        rfl
      · simp
      · trivial
  · have ht : t = s.lastTime + wait := hok t b hs
    by_cases hd : t ≤ ev.1
    · have hfire := fireDue_due s ev.1 t b hs hd
      by_cases h2 : t + wait ≤ ev.1
      · have hcall := throttleCall_leading wait ⟨t, none⟩ ev.1 ev.2
          (show t + wait ≤ ev.1 from h2)
        simp only [throttleStep, hfire, hcall]
        refine ⟨fun t a hta => by simp at hta,
          Or.inr (Or.inr ⟨(t, b), (ev.1, ev.2), ?_, ?_, ?_, ?_⟩)⟩
        · simp
        · omega
        · exact h2
        · rfl
      · have hcall := throttleCall_schedule wait ⟨t, none⟩ ev.1 ev.2 rfl
          (show ev.1 < t + wait by omega)
        simp only [throttleStep, hfire, hcall]
        refine ⟨fun t a hta => ?_, Or.inr (Or.inl ⟨(t, b), ?_, ?_, ?_⟩)⟩
        · simp only at hta
          cases hta
          rfl
        · simp
        · omega
        · rfl
    · have hfire := fireDue_not_due s ev.1 t b hs hd
      have hcall := throttleCall_drop wait s ev.1 ev.2 t b hs (by omega)
      simp only [throttleStep, hfire, hcall]
      refine ⟨hok, Or.inl ⟨?_, ?_⟩⟩
      · simp
      · trivial

/-- Processing any list of call events preserves the timer invariant; the
executions produced are spaced at least `wait` apart, the first of them is
at least `wait` after the input state's `lastTime`, and the output
`lastTime` records the last execution's time (or is unchanged when no
execution happened). -/
theorem throttleRunAux_spaced {α : Type} (wait : Nat) :
    ∀ (events : List (Nat × α)) (s : ThrottleState α), timerOk wait s →
      timerOk wait (throttleRunAux wait s events).1 ∧
      List.Chain' (fun p q => p.1 + wait ≤ q.1)
        (throttleRunAux wait s events).2 ∧
      (∀ e ∈ (throttleRunAux wait s events).2.head?,
        s.lastTime + wait ≤ e.1) ∧
      (((throttleRunAux wait s events).2 = [] ∧
          (throttleRunAux wait s events).1.lastTime = s.lastTime) ∨
        (∃ e, (throttleRunAux wait s events).2.getLast? = some e ∧
          (throttleRunAux wait s events).1.lastTime = e.1)) := by
  intro events
  induction events with
  | nil =>
    intro s hok
    refine ⟨hok, List.chain'_nil, ?_, Or.inl ⟨rfl, rfl⟩⟩
    intro e he
    simp [throttleRunAux] at he
  | cons ev rest ih =>
    intro s hok
    obtain ⟨hok1, hshape⟩ := throttleStep_shape wait s ev hok
    obtain ⟨hok2, hchain2, hhead2, hlast2⟩ := ih (throttleStep wait s ev).1 hok1
    have hrw1 : (throttleRunAux wait s (ev :: rest)).1 =
        (throttleRunAux wait (throttleStep wait s ev).1 rest).1 := rfl
    have hrw2 : (throttleRunAux wait s (ev :: rest)).2 =
        (throttleStep wait s ev).2 ++
          (throttleRunAux wait (throttleStep wait s ev).1 rest).2 := rfl
    rw [hrw1, hrw2]
    rcases hshape with ⟨hnil, hlt⟩ | ⟨e, hone, hle, hlt⟩ |
        ⟨e, f, htwo, hle, hef, hlt⟩
    · rw [hnil, List.nil_append]
      refine ⟨hok2, hchain2, ?_, ?_⟩
      · intro x hx
        have := hhead2 x hx
        omega
      · rcases hlast2 with ⟨h1, h2⟩ | ⟨e2, h1, h2⟩
        · exact Or.inl ⟨h1, by omega⟩
        · exact Or.inr ⟨e2, h1, h2⟩
    · rw [hone]
      have hchainL : List.Chain' (fun p q : Nat × α => p.1 + wait ≤ q.1)
          ([e] ++ (throttleRunAux wait (throttleStep wait s ev).1 rest).2) := by
        refine List.Chain'.append (List.chain'_singleton e) hchain2 ?_
        intro x hx y hy
        have hx' : e = x := by simpa using hx
        have := hhead2 y hy
        rw [← hx']
        omega
      refine ⟨hok2, hchainL, ?_, ?_⟩
      · intro x hx
        have hx' : e = x := by simpa using hx
        rw [← hx']
        exact hle
      · rcases hlast2 with ⟨h1, h2⟩ | ⟨e2, h1, h2⟩
        · refine Or.inr ⟨e, ?_, by omega⟩
          rw [h1]
          simp
        · refine Or.inr ⟨e2, ?_, h2⟩
          have hne : (throttleRunAux wait (throttleStep wait s ev).1 rest).2 ≠
              [] := by
            intro hc
            rw [hc] at h1
            simp at h1
          rw [List.getLast?_append_of_ne_nil _ hne]
          exact h1
    · rw [htwo]
      have hchainL : List.Chain' (fun p q : Nat × α => p.1 + wait ≤ q.1)
          ([e, f] ++ (throttleRunAux wait (throttleStep wait s ev).1 rest).2) := by
        refine List.Chain'.append ?_ hchain2 ?_
        · exact List.chain'_pair.mpr hef
        · intro x hx y hy
          have hx' : f = x := by simpa using hx
          have := hhead2 y hy
          rw [← hx']
          omega
      refine ⟨hok2, hchainL, ?_, ?_⟩
      · intro x hx
        have hx' : e = x := by simpa using hx
        rw [← hx']
        exact hle
      · rcases hlast2 with ⟨h1, h2⟩ | ⟨e2, h1, h2⟩
        · refine Or.inr ⟨f, ?_, by omega⟩
          rw [h1]
          simp
        · refine Or.inr ⟨e2, ?_, h2⟩
          have hne : (throttleRunAux wait (throttleStep wait s ev).1 rest).2 ≠
              [] := by
            intro hc
            rw [hc] at h1
            simp at h1
          rw [List.getLast?_append_of_ne_nil _ hne]
          exact h1

/-! ## Theorems about throttle and debounce -/

/-- C8: over any sequence of call events, consecutive executions of `fn`
produced by a throttled wrapper (including the final trailing fire) are
separated by at least `windowMs`; and the wrapper holds at most one pending
trailing timer at any point, which the model states by construction — the
closure's single `timeoutId` variable is one `Option`-valued `timer` field.
-/
theorem c8_throttle_min_spacing {α : Type} (wait : Nat)
    (events : List (Nat × α)) :
    List.Chain' (fun p q => p.1 + wait ≤ q.1) (throttleRun wait events) := by
  obtain ⟨hok, hchain, hhead, hlast⟩ :=
    throttleRunAux_spaced wait events throttleInit
      (fun t a h => by simp [throttleInit] at h)
  have hrw : throttleRun wait events =
      (throttleRunAux wait throttleInit events).2 ++
        throttleFlush (throttleRunAux wait throttleInit events).1 := rfl
  rw [hrw]
  refine List.Chain'.append hchain ?_ ?_
  · rcases hft : (throttleRunAux wait (throttleInit (α := α)) events).1.timer
      with _ | ⟨t, a⟩
    · simp [throttleFlush, hft]
    · simp [throttleFlush, hft]
  · intro x hx y hy
    rcases hft : (throttleRunAux wait (throttleInit (α := α)) events).1.timer
      with _ | ⟨t, a⟩
    · simp [throttleFlush, hft] at hy
    · have hta := hok t a hft
      have hy' : (t, a) = y := by simpa [throttleFlush, hft] using hy
      rcases hlast with ⟨h1, h2⟩ | ⟨e2, h1, h2⟩
      · rw [h1] at hx
        simp at hx
      · have hx' : e2 = x := by
          rw [h1] at hx
          simpa using hx
        have hy1 : y.1 = t := by rw [← hy']
        have hx1 : x.1 = e2.1 := by rw [← hx']
        omega

/-- C7 counterexample: with `windowMs = 1000`, the very first call to a
fresh throttled wrapper made at time 0 does not execute `fn` synchronously
(the call returns `none` as its synchronous execution): because `lastTime`
is initialised to 0, `remaining = 1000 - (0 - 0) > 0` and the call only
schedules a trailing timer, which fires at time 1000.  So the first call
does not fire immediately "regardless of the time at which the call
occurs". -/
theorem c7_first_call_at_time_zero_not_immediate :
    (throttleCall 1000 throttleInit 0 (42 : Nat)).2 = none ∧
    throttleRun 1000 [(0, (42 : Nat))] = [(1000, 42)] := by
  decide

/-- C7 amended: the first call to a fresh throttled wrapper executes `fn`
immediately (synchronously within the call), provided the call occurs at a
clock time of at least `windowMs` (since `lastTime` starts at 0; real
`Date.now()` values always satisfy this). -/
theorem c7_first_call_immediate {α : Type} (wait now : Nat) (a : α)
    (h : wait ≤ now) :
    throttleCall wait throttleInit now a = (⟨now, none⟩, some a) := by
  simp only [throttleCall, throttleInit]
  rw [if_pos (by omega)]

/-- C7 witness: a fresh wrapper with a 1000 ms window called at time 5000
executes immediately with its argument. -/
theorem c7_first_call_immediate_witness :
    throttleCall 1000 throttleInit 5000 (7 : Nat) = (⟨5000, none⟩, some 7) :=
  c7_first_call_immediate 1000 5000 7 (by decide)

/-- C2 counterexample: with `windowMs = 200` and calls at times 1000, 1050,
1150 carrying arguments 0, 1, 2, the wrapper fires the leading call at 1000
with argument 0 and one trailing execution at 1200 with argument 1 — the
argument of the FIRST in-window call (which scheduled the timer), not of the
last call; argument 2 is never used.  This contradicts the claim that the
trailing execution uses the last call's arguments and that an intermediate
call's arguments are never used. -/
theorem c2_trailing_uses_first_inwindow_args :
    throttleRun 200 [(1000, 0), (1050, 1), (1150, 2)] =
      [(1000, 0), (1200, 1)] ∧
    ∀ e ∈ throttleRun 200 [(1000, 0), (1050, 1), (1150, 2)], e.2 ≠ 2 := by
  decide

/-- C2 amended: for a burst of calls within one window after the leading
call, at most one additional (trailing) execution of `fn` occurs, and it
uses the arguments of the FIRST call arriving inside the window (the call
that scheduled the trailing timer, which fires when the window closes);
later in-window calls are dropped while the timer is pending, so their
arguments — including the last call's — are never used. -/
theorem c2_trailing_collapse {α : Type} (wait t0 t1 : Nat) (a0 a1 : α)
    (rest : List (Nat × α)) (h0 : wait ≤ t0) (h1 : t1 < t0 + wait)
    (hrest : ∀ e ∈ rest, e.1 < t0 + wait) :
    throttleRun wait ((t0, a0) :: (t1, a1) :: rest) =
      [(t0, a0), (t0 + wait, a1)] := by
  have hfire0 : fireDue (throttleInit : ThrottleState α) t0 =
      (throttleInit, []) := fireDue_none _ _ rfl
  have hcall0 : throttleCall wait (throttleInit : ThrottleState α) t0 a0 =
      (⟨t0, none⟩, some a0) := throttleCall_leading _ _ _ _ (by simp [throttleInit]; omega)
  have hfire1 : fireDue (⟨t0, none⟩ : ThrottleState α) t1 =
      (⟨t0, none⟩, []) := fireDue_none _ _ rfl
  have hcall1 : throttleCall wait (⟨t0, none⟩ : ThrottleState α) t1 a1 =
      (⟨t0, some (t0 + wait, a1)⟩, none) :=
    throttleCall_schedule _ _ _ _ rfl (by simpa using h1)
  simp only [throttleRun, throttleRunAux, throttleStep, hfire0, hcall0,
    hfire1, hcall1]
  rw [throttleRunAux_drop wait rest t0 a1 hrest]
  simp [throttleFlush]

/-- C2 witness: with a 200 ms window, calls at 1000, 1050, 1150 with
arguments 1, 2, 5 produce the leading execution at 1000 with 1 and exactly
one trailing execution at 1200 with 2 (the first in-window call's
argument). -/
theorem c2_trailing_collapse_witness :
    throttleRun 200 ((1000, 1) :: (1050, 2) :: [(1150, 5)]) =
      [(1000, 1), (1200, 2)] :=
  c2_trailing_collapse 200 1000 1050 1 2 [(1150, 5)] (by decide) (by decide)
    (by decide)

/-- C6: a sequence of calls to a debounced wrapper in which every call
arrives strictly within `delayMs` of its predecessor, with no further call
afterwards, executes `fn` exactly once, `delayMs` after the last call, with
the last call's arguments. -/
theorem c6_debounce_collapses_burst {α : Type} (delay : Nat)
    (l : List (Nat × α)) (lastCall : Nat × α)
    (h : List.Chain' (fun p q => p.1 ≤ q.1 ∧ q.1 < p.1 + delay)
      (l ++ [lastCall])) :
    debounceRun delay (l ++ [lastCall]) =
      [(lastCall.1 + delay, lastCall.2)] := by
  cases l with
  | nil =>
    simp [debounceRun, debounceRunAux, debounceStep, debounceCall,
      debounceInit, debounceFlush]
  | cons e l =>
    rw [List.cons_append] at h
    have hrec := debounceRunAux_pending delay l e lastCall h
    simp only [List.cons_append, debounceRun, debounceRunAux, debounceStep,
      debounceCall, debounceInit, List.append_eq]
    rw [hrec]
    simp [debounceFlush]

/-- C6 witness: with a 300 ms delay, calls at 0, 100, 200 with arguments
1, 2, 3 produce exactly one execution, at 500 with argument 3. -/
theorem c6_debounce_collapses_burst_witness :
    debounceRun 300 ([(0, 1), (100, 2)] ++ [(200, (3 : Nat))]) = [(500, 3)] :=
  c6_debounce_collapses_burst 300 [(0, 1), (100, 2)] (200, 3)
    (by simp [List.chain'_cons, List.chain'_singleton])

/-! ## Theorems about useFetch -/

/-- C10: on creation of a useFetch instance, before any request settles, the
state is `data = null`, `error = null`, and `loading` equal to the
`immediate` flag (true exactly when `immediate` is true). -/
theorem c10_initial_state (immediate : Bool) :
    (initFetch immediate).data = none ∧ (initFetch immediate).error = none ∧
    (initFetch immediate).loading = immediate :=
  ⟨rfl, rfl, rfl⟩

/-- C9: whenever a request settles — success, genuine failure, or abort —
the `finally` block sets `loading` to false; in particular an aborted
request still performs this write. -/
theorem c9_settle_sets_loading_false (s : FetchState) (r : Nat) (o : Outcome) :
    (settle s r o).loading = false :=
  rfl

/-- C4: a cancellation-triggered failure — the continuation catches an error
named "AbortError", either because the request's controller was aborted or
because the rejection itself carries that name — never assigns to the
`error` field: the only state-setter call the settling performs is the
`finally` write to `loading`. -/
theorem c4_abort_error_suppressed (s : FetchState) (r : Nat) (o : Outcome)
    (h : r ∈ s.abortedCtrls ∨ ∃ msg, o = Outcome.netError "AbortError" msg) :
    (settle s r o).error = s.error ∧
    (settle s r o).log = s.log ++ [("loading", s.mounted)] := by
  rcases h with h | ⟨msg, rfl⟩
  · simp [settle, setLoadingF, h]
  · by_cases hr : r ∈ s.abortedCtrls <;> simp [settle, setLoadingF, hr]

/-- C4 witness: a concrete aborted request settling with a success outcome
leaves `error` untouched and writes only `loading`. -/
theorem c4_abort_error_suppressed_witness :
    (settle (initFetch true) 0 (Outcome.success 3)).error = none ∧
    (settle { initFetch true with abortedCtrls := [0] } 0
        (Outcome.success 3)).error = none ∧
    (settle { initFetch true with abortedCtrls := [0] } 0
        (Outcome.success 3)).log = [] ++ [("loading", true)] :=
  ⟨by decide,
   (c4_abort_error_suppressed { initFetch true with abortedCtrls := [0] } 0
      (Outcome.success 3) (Or.inl (by decide))).1,
   (c4_abort_error_suppressed { initFetch true with abortedCtrls := [0] } 0
      (Outcome.success 3) (Or.inl (by decide))).2⟩

/-- C5: a fetch cycle ending in a genuine failure — the request rejects with
an error not named "AbortError", or the response has a non-ok status — ends
with `loading = false`, a non-null descriptive `error`, and `data` unchanged
from before the cycle (a previously held value is not reset). -/
theorem c5_failure_path (s : FetchState) (o : Outcome)
    (hfresh : s.nextId ∉ s.abortedCtrls)
    (hfail : (∃ st, o = Outcome.httpError st) ∨
      ∃ name msg, o = Outcome.netError name msg ∧ name ≠ "AbortError") :
    (settle (startFetch s).1 (startFetch s).2 o).loading = false ∧
    (settle (startFetch s).1 (startFetch s).2 o).error ≠ none ∧
    (settle (startFetch s).1 (startFetch s).2 o).data = s.data := by
  rcases hfail with ⟨st, rfl⟩ | ⟨name, msg, rfl, hname⟩
  · simp [settle, startFetch, setLoadingF, setErrorF, setDataF, hfresh]
  · simp [settle, startFetch, setLoadingF, setErrorF, setDataF, hfresh, hname]

/-- C5 witness: a state holding an earlier success value `some 7`, whose
next request fails with HTTP status 404, ends with `loading = false`,
non-null `error`, and `data` still `some 7`. -/
theorem c5_failure_path_witness :
    (settle (startFetch { initFetch false with data := some 7 }).1
        (startFetch { initFetch false with data := some 7 }).2
        (Outcome.httpError 404)).loading = false ∧
    (settle (startFetch { initFetch false with data := some 7 }).1
        (startFetch { initFetch false with data := some 7 }).2
        (Outcome.httpError 404)).error ≠ none ∧
    (settle (startFetch { initFetch false with data := some 7 }).1
        (startFetch { initFetch false with data := some 7 }).2
        (Outcome.httpError 404)).data = some 7 :=
  c5_failure_path { initFetch false with data := some 7 }
    (Outcome.httpError 404) (by decide) (Or.inl ⟨404, rfl⟩)

/-- C1: evaluation of the code's model at the failing input.  Two refetch
calls are issued back to back; the second request settles first with body 2,
the superseded first request later settles with body 1.  The source replaces
`controllerRef.current` without aborting, so the first request is never
aborted (its controller 0 is not in `abortedCtrls`), and its late resolution
overwrites `data` — the final `data` is the stale `some 1`, not the newest
request's `some 2`, contradicting the claim that the superseded request's
resolution never alters the observable state. -/
theorem c1_refetch_not_aborted_stale_overwrite :
    (startFetch (initFetch false)).2 = 0 ∧
    (startFetch (startFetch (initFetch false)).1).2 = 1 ∧
    0 ∉ (startFetch (startFetch (initFetch false)).1).1.abortedCtrls ∧
    (settle (startFetch (startFetch (initFetch false)).1).1 1
        (Outcome.success 2)).data = some 2 ∧
    (settle (settle (startFetch (startFetch (initFetch false)).1).1 1
        (Outcome.success 2)) 0 (Outcome.success 1)).data = some 1 := by
  decide

/-- C3: evaluation of the code's model at the failing input.  A request is
started (the immediate fetch), the component unmounts while it is in flight
(the cleanup aborts controller 0), and the request then settles.  No write
to `data` or `error` happens, but the `finally` block still calls
`setLoading(false)` after teardown: the log records a write to `loading`
with the mounted flag false, contradicting the claim that no write to
`data`, `error`, or `loading` occurs after teardown. -/
theorem c3_loading_write_after_unmount :
    (startFetch (initFetch true)).2 = 0 ∧
    0 ∈ (unmountFetch (startFetch (initFetch true)).1).abortedCtrls ∧
    (settle (unmountFetch (startFetch (initFetch true)).1) 0
        (Outcome.success 5)).data = none ∧
    (settle (unmountFetch (startFetch (initFetch true)).1) 0
        (Outcome.success 5)).error = none ∧
    ("loading", false) ∈ (settle (unmountFetch (startFetch (initFetch true)).1) 0
        (Outcome.success 5)).log := by
  decide

end ReactUtils
